import Mathlib

/-!
Verification of the dino-game rendering/collision/simulation engine of this
repository (packages/cli/src/ui/components/dino/graphics.ts together with the
tick/reset logic of the DinoGame component in the same bundle).

The embedding below translates the TypeScript source directly:
* JS numbers that only ever hold integers are modelled as `Nat`/`Int`;
  continuous quantities (positions, velocities, score, speed) as `ℚ`.
* `Uint8Array` pixel stores are modelled as `List Nat` together with the
  length invariant `Wf`; the JS store coercion `ToUint8` is the `% 256`.
* `for` loops become folds over `List.range`, in the same iteration order.
-/

namespace DinoGraphics

/-- Constant `COLOR_DEFAULT = 1` from graphics.ts. -/
def COLOR_DEFAULT : Nat := 1

/-- Constant `COLOR_GRAY = 2` from graphics.ts. -/
def COLOR_GRAY : Nat := 2

/-- Constant `GRADIENT_STEPS = 32` from graphics.ts. -/
def GRADIENT_STEPS : Nat := 32

/-- Constant `GRADIENT_START_IDX = 10` from graphics.ts. -/
def GRADIENT_START_IDX : Nat := 10

/-- The fixed 16-entry lookup table of 2x2 block characters from graphics.ts;
index = (TL shifted 3) or (TR shifted 2) or (BL shifted 1) or BR. -/
def BLOCK_LOOKUP : List Char :=
  [' ', '▗', '▖', '▄', '▝', '▐', '▞', '▟', '▘', '▚', '▌', '▙', '▀', '▜', '▛', '█']

/-- Embeds `getGradientColor(t)` from graphics.ts: clamp `t` to `[0,1]`, take
`Math.floor(clampedT * (GRADIENT_STEPS - 1))` and offset it into the reserved
gradient color-code range.  The JS number is modelled as `ℚ`; the result is a
nonnegative color code, returned as `Nat`. -/
def getGradientColor (t : ℚ) : Nat :=
  let clampedT := max 0 (min 1 t)
  GRADIENT_START_IDX + (⌊clampedT * ((GRADIENT_STEPS : ℚ) - 1)⌋).toNat

/-- Embeds the `QuadrantCanvas` class state: `width`, `height` and the
`Uint8Array` pixel buffer (row-major, one `Nat` per pixel). -/
structure QuadrantCanvas where
  width : Nat
  height : Nat
  pixels : List Nat

/-- The constructor `new QuadrantCanvas(width, height)`: a zero-filled buffer
of `width * height` cells. -/
def QuadrantCanvas.ofSize (width height : Nat) : QuadrantCanvas :=
  ⟨width, height, List.replicate (width * height) 0⟩

/-- The buffer-length invariant every canvas produced by the source satisfies:
`pixels` has exactly `width * height` cells, as allocated by the constructor. -/
def QuadrantCanvas.Wf (cv : QuadrantCanvas) : Prop :=
  cv.pixels.length = cv.width * cv.height

instance (cv : QuadrantCanvas) : Decidable cv.Wf := by
  unfold QuadrantCanvas.Wf; infer_instance

/-- Embeds `QuadrantCanvas.set(x, y, color)`: in bounds, write
`pixels[floor(y)*width + floor(x)] = color` (the `Uint8Array` store coerces the
value mod 256); out of bounds, do nothing.  Coordinates are modelled as `Int`,
on which `Math.floor` is the identity. -/
def QuadrantCanvas.set (cv : QuadrantCanvas) (x y : Int) (color : Nat) : QuadrantCanvas :=
  if 0 ≤ x ∧ x < (cv.width : Int) ∧ 0 ≤ y ∧ y < (cv.height : Int) then
    { cv with pixels := cv.pixels.set (y.toNat * cv.width + x.toNat) (color % 256) }
  else cv

/-- Embeds `QuadrantCanvas.get(x, y)`: in bounds, read
`pixels[y*width + x]`; out of bounds, return 0. -/
def QuadrantCanvas.get (cv : QuadrantCanvas) (x y : Int) : Nat :=
  if 0 ≤ x ∧ x < (cv.width : Int) ∧ 0 ≤ y ∧ y < (cv.height : Int) then
    cv.pixels.getD (y.toNat * cv.width + x.toNat) 0
  else 0

/-- Embeds the `Sprite` interface: `width`, `height` and the RGBA `Uint8Array`
(4 channel bytes per pixel), modelled as an index function. -/
structure Sprite where
  width : Nat
  height : Nat
  data : Nat → Nat

/-- Embeds `isPixelCollidable(sprite, x, y)` from graphics.ts: out-of-bounds
coordinates are not collidable; otherwise the pixel at
`(sprite.width * floor(y) + floor(x)) << 2` must be opaque (`alpha > 128`) and
dark (`red < 128`).  Coordinates are `Int`, on which `Math.floor` is the
identity. -/
def isPixelCollidable (s : Sprite) (x y : Int) : Bool :=
  if x < 0 ∨ (s.width : Int) ≤ x ∨ y < 0 ∨ (s.height : Int) ≤ y then false
  else
    let idx := (s.width * y.toNat + x.toNat) * 4
    decide (128 < s.data (idx + 3)) && decide (s.data idx < 128)

/-- The collidability condition of `isPixelCollidable`, written out as a
proposition: the coordinate is inside the sprite bounds, the pixel alpha
channel exceeds 128 and its red channel is below 128. -/
def collidableAt (s : Sprite) (x y : Int) : Prop :=
  0 ≤ x ∧ x < (s.width : Int) ∧ 0 ≤ y ∧ y < (s.height : Int) ∧
    128 < s.data ((s.width * y.toNat + x.toNat) * 4 + 3) ∧
    s.data ((s.width * y.toNat + x.toNat) * 4) < 128

instance (s : Sprite) (x y : Int) : Decidable (collidableAt s x y) := by
  unfold collidableAt; infer_instance

/-- Embeds `checkCollision` from graphics.ts: compute the world-space
intersection rectangle of the two instance boxes, return false if it is
degenerate, and otherwise scan every integer position of the intersection
(rows outer, columns inner, exactly as the two source `for` loops do),
returning true as soon as both sprites are collidable at the corresponding
local source coordinates. -/
def checkCollision (s1 : Sprite) (x1 y1 w1 h1 srcX1 srcY1 : Int)
    (s2 : Sprite) (x2 y2 w2 h2 srcX2 srcY2 : Int) : Bool :=
  let left := max x1 x2
  let right := min (x1 + w1) (x2 + w2)
  let top := max y1 y2
  let bottom := min (y1 + h1) (y2 + h2)
  if right ≤ left ∨ bottom ≤ top then false
  else
    (List.range (bottom - top).toNat).any fun dy =>
      (List.range (right - left).toNat).any fun dx =>
        let y := top + dy
        let x := left + dx
        isPixelCollidable s1 (srcX1 + (x - x1)) (srcY1 + (y - y1)) &&
          isPixelCollidable s2 (srcX2 + (x - x2)) (srcY2 + (y - y2))

/-- A 10x10 sprite whose pixels are all opaque and dark (alpha 255, red 0),
as produced by decoding a 10x10 block of solid glyphs. -/
def darkSquare10 : Sprite :=
  ⟨10, 10, fun i => if i % 4 = 3 then 255 else 0⟩

/-- A 10x10 sprite whose pixels are all opaque and light (every channel 255),
as produced by decoding a 10x10 block of light border glyphs. -/
def lightSquare10 : Sprite :=
  ⟨10, 10, fun _ => 255⟩

/-- The list `colors` of `QuadrantCanvas.toLines`: the four sub-pixel values of
a 2x2 block, filtered to the nonzero ones. -/
def dcColors (p1 p2 p3 p4 : Nat) : List Nat :=
  [p1, p2, p3, p4].filter (fun c => decide (0 < c))

/-- The occurrence count computed inside the dominant-color loop of
`toLines`: how many entries of `colors` equal `c`. -/
def cnt (colors : List Nat) (c : Nat) : Nat :=
  (colors.filter (fun o => o == c)).length

/-- One iteration of the dominant-color loop of `toLines`, acting on the
accumulator `(maxCount, color)`: if the count of `c` in `colors` exceeds
`maxCount` take `(count, c)`; on a tie keep `maxCount` and prefer the larger
color code; otherwise keep the accumulator. -/
def domStep (colors : List Nat) (acc : Nat × Nat) (c : Nat) : Nat × Nat :=
  let count := cnt colors c
  if acc.1 < count then (count, c)
  else if count = acc.1 then (acc.1, if acc.2 < c then c else acc.2)
  else acc

/-- The dominant color a 2x2 block gets in `toLines` (graphics.ts lines
133-151): fold the dominant-color loop over the nonzero sub-pixel values,
starting from `maxCount = 0`, `color = 0`. -/
def dominantColor (p1 p2 p3 p4 : Nat) : Nat :=
  let colors := dcColors p1 p2 p3 p4
  (colors.foldl (domStep colors) (0, 0)).2

/-- The glyph chosen for a 2x2 block in `toLines`: each sub-pixel becomes a
bit (`p > 0 ? 1 : 0`), the bits are packed as `(tl << 3) | (tr << 2) |
(bl << 1) | br`, and the index selects from `BLOCK_LOOKUP`. -/
def glyphFor (p1 p2 p3 p4 : Nat) : Char :=
  BLOCK_LOOKUP.getD
    ((if 0 < p1 then 1 else 0) <<< 3 ||| (if 0 < p2 then 1 else 0) <<< 2 |||
      (if 0 < p3 then 1 else 0) <<< 1 ||| (if 0 < p4 then 1 else 0)) ' '

/-- One emitted piece of a `toLines` output line.  The JS code builds each
line by string concatenation of ANSI escape sequences and block glyphs; here a
line is the list of those pieces in order.  `esc code` stands for the escape
sequence the source emits for dominant color `code`: code 0 or `COLOR_DEFAULT`
is the reset-foreground sequence, `COLOR_GRAY` is bright-black, and a code in
the gradient range is the precomputed true-color sequence `GRADIENT_ANSI[code -
GRADIENT_START_IDX]`. -/
inductive Chunk where
  | esc (code : Nat)
  | glyph (c : Char)
deriving DecidableEq

/-- Whether a chunk is a block glyph (rather than a color escape sequence). -/
def Chunk.isGlyph : Chunk → Bool
  | .esc _ => false
  | .glyph _ => true

/-- The escape chunks appended when the dominant `color` of a block differs
from the running `currentColor` (graphics.ts lines 160-172): reset for
`COLOR_DEFAULT`, bright-black for `COLOR_GRAY`, a gradient sequence for a code
in the gradient range, reset again for color 0, and nothing otherwise. -/
def escChunks (color : Nat) : List Chunk :=
  if color = COLOR_DEFAULT then [.esc 0]
  else if color = COLOR_GRAY then [.esc COLOR_GRAY]
  else if GRADIENT_START_IDX ≤ color ∧ color < GRADIENT_START_IDX + GRADIENT_STEPS then
    [.esc color]
  else if color = 0 then [.esc 0]
  else []

/-- One iteration of the inner (column) loop of `toLines` at column `x` of the
row pair starting at `y`: read the four sub-pixels, compute the dominant color
and glyph, emit a color switch when the dominant color changed (updating
`currentColor`, which color 0 resets), then emit the glyph. -/
def blockStep (cv : QuadrantCanvas) (y : Int) (acc : List Chunk × Nat) (x : Int) :
    List Chunk × Nat :=
  let p1 := cv.get x y
  let p2 := cv.get (x + 1) y
  let p3 := cv.get x (y + 1)
  let p4 := cv.get (x + 1) (y + 1)
  let color := dominantColor p1 p2 p3 p4
  let char := glyphFor p1 p2 p3 p4
  let line := acc.1
  let currentColor := acc.2
  let next :=
    if color ≠ currentColor then
      (line ++ escChunks color, if color = 0 then 0 else color)
    else (line, currentColor)
  (next.1 ++ [Chunk.glyph char], next.2)

/-- One output line of `toLines`, for the pixel-row pair starting at `y`: the
column loop `for (x = 0; x < width; x += 2)` visits `x = 2k` for
`k < ceil(width/2)`; the line ends with a reset escape when a color is still
active. -/
def rowLine (cv : QuadrantCanvas) (y : Int) : List Chunk :=
  let cols := (List.range ((cv.width + 1) / 2)).map (fun k => ((2 * k : Nat) : Int))
  let r := cols.foldl (blockStep cv y) ([], 0)
  if r.2 ≠ 0 then r.1 ++ [Chunk.esc 0] else r.1

/-- Embeds `QuadrantCanvas.toLines(minY, maxY)`: `startY = max(0, floor(minY))`
(for integer arguments `floor` is the identity), `endY = min(height, maxY)`,
and the row loop `for (y = startY; y < endY; y += 2)` visits
`y = startY + 2k` for `k < ceil(endY - startY)/2)`. -/
def QuadrantCanvas.toLines (cv : QuadrantCanvas) (minY maxY : Int) : List (List Chunk) :=
  let startY := max 0 minY
  let endY := min (cv.height : Int) maxY
  ((List.range (((endY - startY).toNat + 1) / 2)).map (fun k : Nat => startY + 2 * (k : Int))).map
    (rowLine cv)

/-- The number of glyph chunks in a line, ignoring the escape chunks. -/
def glyphCount (l : List Chunk) : Nat :=
  (l.filter Chunk.isGlyph).length

/-- The color code a dark pixel receives in `drawSpriteGradient` and then
stores through `ctx.setPixel`: the source computes `t = sx / (sprite.width -
1)` and `getGradientColor(t)`.  When `sprite.width = 1` the JS expression is
`0 / 0 = NaN`; `NaN` propagates through `getGradientColor` (clamping and
`Math.floor` of `NaN` are `NaN`, and adding `GRADIENT_START_IDX` keeps `NaN`)
and the `Uint8Array` store in `QuadrantCanvas.set` coerces `NaN` to 0, so the
stored code is 0 in that case.  For `width ≥ 2` the arithmetic is exact. -/
def gradientPixelColor (sx width : Nat) : Nat :=
  if width = 1 then 0
  else getGradientColor ((sx : ℚ) / ((width : ℚ) - 1))

/-- The row-major list of source-pixel coordinates `(sy, sx)` visited by the
two nested loops `for (sy = 0; sy < height; sy++) for (sx = 0; sx < width;
sx++)` of `drawSpriteGradient`. -/
def spritePixels (s : Sprite) : List (Nat × Nat) :=
  (List.range s.height).flatMap fun sy => (List.range s.width).map fun sx => (sy, sx)

/-- One iteration of the `drawSpriteGradient` loop body at source pixel
`p = (sy, sx)`: read red and alpha at index `(width * sy + sx) << 2`; if the
pixel is opaque (`alpha > 128`), a dark pixel (`red < 128`) is drawn with the
gradient color for `sx` and a light pixel clears the destination to 0; a
transparent pixel leaves the canvas untouched. -/
def gradientStep (s : Sprite) (x y : Int) (cv : QuadrantCanvas) (p : Nat × Nat) :
    QuadrantCanvas :=
  let idx := (s.width * p.1 + p.2) * 4
  let r := s.data idx
  let a := s.data (idx + 3)
  if 128 < a then
    if r < 128 then cv.set (x + p.2) (y + p.1) (gradientPixelColor p.2 s.width)
    else cv.set (x + p.2) (y + p.1) 0
  else cv

/-- Embeds `drawSpriteGradient(ctx, sprite, x, y)` from graphics.ts: fold the
loop body over all source pixels in row-major loop order.
`ctx.setPixel` forwards to `QuadrantCanvas.set`, and `Math.floor(x + sx)` is
the identity on the integer coordinates used here. -/
def drawSpriteGradient (cv : QuadrantCanvas) (s : Sprite) (x y : Int) : QuadrantCanvas :=
  (spritePixels s).foldl (gradientStep s x y) cv

/-- A 1x1 sprite consisting of a single opaque dark pixel. -/
def darkDot : Sprite :=
  ⟨1, 1, fun i => if i % 4 = 3 then 255 else 0⟩

/-- A 2x1 sprite consisting of two opaque dark pixels. -/
def darkPair : Sprite :=
  ⟨2, 1, fun i => if i % 4 = 3 then 255 else 0⟩

end DinoGraphics

namespace DinoGame

open DinoGraphics

/-- The game-state enumeration of the DinoGame component. -/
inductive GState where
  | LOADING
  | WAITING
  | PLAYING
  | GAME_OVER
deriving DecidableEq

/-- The obstacle type tag of the DinoGame component. -/
inductive ObstacleType where
  | CACTUS_SMALL
  | CACTUS_LARGE
  | PTERODACTYL
deriving DecidableEq

/-- An obstacle of the DinoGame component: world position, type tag, instance
size and source-rectangle origin.  The reference to the shared sprite pixel
data is not part of the motion/culling logic modelled here and is omitted. -/
structure Obstacle where
  x : ℚ
  y : ℚ
  type : ObstacleType
  width : ℚ
  height : ℚ
  srcX : ℚ
  srcY : ℚ
deriving DecidableEq

/-- A decorative cloud: world position. -/
structure Cloud where
  x : ℚ
  y : ℚ
deriving DecidableEq

/-- A decorative logo: world position (the sprite reference is omitted). -/
structure Logo where
  x : ℚ
  y : ℚ
deriving DecidableEq

/-- Constant `HEIGHT = 150` (virtual canvas height in dots). -/
def HEIGHT : ℚ := 150

/-- Constant `GROUND_Y = HEIGHT - 4`. -/
def GROUND_Y : ℚ := HEIGHT - 4

/-- Constant `DINO_HEIGHT = 23` (the t-rex sheet frame height). -/
def DINO_HEIGHT : ℚ := 23

/-- Constant `GRAVITY = 0.75`.  This value is exactly representable as a
binary float, so the `ℚ` model matches the JS arithmetic exactly here. -/
def GRAVITY : ℚ := 0.75

/-- Constant `SPEED_INITIAL = 5`. -/
def SPEED_INITIAL : ℚ := 5

/-- Constant `MAX_SPEED = 15`. -/
def MAX_SPEED : ℚ := 15

/-- Constant `SPEED_ACCELERATION = 0.005`. -/
def SPEED_ACCELERATION : ℚ := 0.005

/-- Constant `INITIAL_GROUND_OFFSET = 600`. -/
def INITIAL_GROUND_OFFSET : ℚ := 600

/-- The part of the DinoGame component state the modelled transitions read and
write: the state tag, score and high score, the dino vertical position and
velocity, the entity lists, the scrolling ground offset, the tick counter, and
the refs `speedRef`, `lastSpawnTickRef`, `lastPteroSpawnTickRef`,
`gameTickRef`. -/
structure GameSnapshot where
  gameState : GState
  score : ℚ
  highScore : ℚ
  dinoY : ℚ
  dinoVy : ℚ
  obstacles : List Obstacle
  clouds : List Cloud
  logos : List Logo
  groundOffset : ℚ
  tick : Nat
  speed : ℚ
  lastSpawnTick : ℚ
  lastPteroSpawnTick : ℚ
  gameTick : ℚ
deriving DecidableEq

/-- Embeds the obstacle move-and-cull step of the tick callback (graphics.ts
bundle lines 1047-1057): every obstacle moves left by `speedRef.current *
timeScale`, pterodactyls by twice that, and obstacles whose right edge reached
the left boundary (`x + width ≤ 0`) are dropped. -/
def moveObstacles (speed timeScale : ℚ) (obs : List Obstacle) : List Obstacle :=
  (obs.map fun o =>
      { o with x := o.x - (if o.type = .PTERODACTYL then speed * 2 else speed) * timeScale })
    |>.filter fun o => decide (0 < o.x + o.width)

/-- Embeds the deterministic core of the `useInterval` tick callback
(graphics.ts bundle lines 1011-1057): increment the tick counter, return early
in WAITING or GAME_OVER, then - for a PLAYING tick - accumulate `gameTickRef`,
score and ground offset by `timeScale`, integrate the dino velocity and
position by gravity and clamp both on ground contact, accelerate the speed up
to `MAX_SPEED`, and move/cull the obstacles with the updated speed.
`timeScale` is 1.0 in NORMAL mode, 0.5 in SLOW and 0.1 in VERY_SLOW.  The
remainder of the callback, the coarser cloud/logo drift, the randomized
spawning, and collision resolution, is not part of this function; none of it
writes the score, physics, speed or tick fields updated here. -/
def tickCore (timeScale : ℚ) (st : GameSnapshot) : GameSnapshot :=
  let st := { st with tick := st.tick + 1 }
  if st.gameState = .WAITING ∨ st.gameState = .GAME_OVER then st
  else
    let gameTick := st.gameTick + timeScale
    let score := st.score + 1 * timeScale
    let groundOffset := st.groundOffset + st.speed * timeScale
    let newVy := st.dinoVy + GRAVITY * timeScale
    let newY := st.dinoY + newVy * timeScale
    let groundLevel := GROUND_Y - DINO_HEIGHT
    let dinoVy := if groundLevel < newY then 0 else newVy
    let dinoY := if groundLevel < newY then groundLevel else newY
    let speed := min MAX_SPEED (st.speed + SPEED_ACCELERATION * timeScale)
    { st with
      gameTick := gameTick
      score := score
      groundOffset := groundOffset
      dinoVy := dinoVy
      dinoY := dinoY
      speed := speed
      obstacles := moveObstacles speed timeScale st.obstacles }

/-- Embeds `resetGame` (graphics.ts bundle lines 827-846): enter PLAYING with
score 0, the dino standing on the ground (`GROUND_Y` minus the loaded dino
sprite height, passed as `dinoSpriteHeight`), zero velocity, empty obstacle
and logo lists, two fresh clouds at 30% and 70% of the width, the initial
ground offset, tick 0 and all refs back to their initial values.  The high
score is not touched. -/
def resetGame (width dinoSpriteHeight : ℚ) (st : GameSnapshot) : GameSnapshot :=
  { st with
    gameState := .PLAYING
    score := 0
    dinoY := GROUND_Y - dinoSpriteHeight
    dinoVy := 0
    obstacles := []
    clouds := [⟨(⌊width * 0.3 / 2⌋ : Int) * 2, 30⟩, ⟨(⌊width * 0.7 / 2⌋ : Int) * 2, 60⟩]
    logos := []
    groundOffset := INITIAL_GROUND_OFFSET
    tick := 0
    speed := SPEED_INITIAL
    lastSpawnTick := 0
    lastPteroSpawnTick := 0
    gameTick := 0 }

/-- Embeds the collision branch of the tick callback for a detected collision
outside infinite mode (graphics.ts bundle lines 1317-1324): enter GAME_OVER
and raise the high score to `max(highScore, score)`. -/
def gameOverTransition (st : GameSnapshot) : GameSnapshot :=
  { st with
    gameState := .GAME_OVER
    highScore := max st.highScore st.score }

/-- A concrete snapshot in the WAITING state, as reached after sprite
loading. -/
def sampleWaiting : GameSnapshot :=
  { gameState := .WAITING
    score := 0
    highScore := 0
    dinoY := GROUND_Y - DINO_HEIGHT
    dinoVy := 0
    obstacles := []
    clouds := []
    logos := []
    groundOffset := INITIAL_GROUND_OFFSET
    tick := 0
    speed := SPEED_INITIAL
    lastSpawnTick := 0
    lastPteroSpawnTick := 0
    gameTick := 0 }

/-- A concrete snapshot in the PLAYING state holding one small cactus. -/
def samplePlaying : GameSnapshot :=
  { sampleWaiting with
    gameState := .PLAYING
    obstacles := [⟨100, 120, .CACTUS_SMALL, 17, 18, 0, 0⟩] }

end DinoGame

namespace DinoGraphics

/-! Helper lemmas about the canvas operations. -/

lemma set_width (cv : QuadrantCanvas) (x y : Int) (c : Nat) :
    (cv.set x y c).width = cv.width := by
  unfold QuadrantCanvas.set; split_ifs <;> rfl

lemma set_height (cv : QuadrantCanvas) (x y : Int) (c : Nat) :
    (cv.set x y c).height = cv.height := by
  unfold QuadrantCanvas.set; split_ifs <;> rfl

lemma set_Wf (cv : QuadrantCanvas) (hwf : cv.Wf) (x y : Int) (c : Nat) :
    (cv.set x y c).Wf := by
  unfold QuadrantCanvas.set QuadrantCanvas.Wf at *
  split_ifs <;> simp [hwf]

lemma rowmajor_ne {w a b a' b' : Nat} (ha : a < w) (ha' : a' < w)
    (h : a ≠ a' ∨ b ≠ b') : b * w + a ≠ b' * w + a' := by
  rcases Nat.lt_trichotomy b b' with hb | hb | hb
  · have h1 : (b + 1) * w ≤ b' * w := Nat.mul_le_mul_right w (by omega)
    rw [Nat.add_mul, Nat.one_mul] at h1
    omega
  · subst hb
    have hne : a ≠ a' := by
      rcases h with h | h
      · exact h
      · exact absurd rfl h
    omega
  · have h1 : (b' + 1) * w ≤ b * w := Nat.mul_le_mul_right w (by omega)
    rw [Nat.add_mul, Nat.one_mul] at h1
    omega

lemma get_set_same (cv : QuadrantCanvas) (hwf : cv.Wf) (x y : Int) (c : Nat)
    (hx0 : 0 ≤ x) (hx1 : x < (cv.width : Int)) (hy0 : 0 ≤ y) (hy1 : y < (cv.height : Int)) :
    (cv.set x y c).get x y = c % 256 := by
  have hset : cv.set x y c =
      { cv with pixels := cv.pixels.set (y.toNat * cv.width + x.toNat) (c % 256) } := by
    unfold QuadrantCanvas.set
    rw [if_pos ⟨hx0, hx1, hy0, hy1⟩]
  rw [hset]
  simp only [QuadrantCanvas.get]
  rw [if_pos ⟨hx0, hx1, hy0, hy1⟩]
  have hidx : y.toNat * cv.width + x.toNat < cv.pixels.length := by
    rw [hwf]
    have h1 : x.toNat < cv.width := by omega
    have h2 : y.toNat < cv.height := by omega
    have h3 : (y.toNat + 1) * cv.width ≤ cv.height * cv.width :=
      Nat.mul_le_mul_right _ (by omega)
    rw [Nat.add_mul, Nat.one_mul] at h3
    have h4 : cv.height * cv.width = cv.width * cv.height := Nat.mul_comm _ _
    omega
  rw [List.getD_eq_getElem?_getD, List.getElem?_set_self',
    List.getElem?_eq_getElem hidx]
  rfl

lemma get_set_ne (cv : QuadrantCanvas) (x y : Int) (c : Nat) (x' y' : Int)
    (h : x' ≠ x ∨ y' ≠ y) :
    (cv.set x y c).get x' y' = cv.get x' y' := by
  by_cases hin : 0 ≤ x ∧ x < (cv.width : Int) ∧ 0 ≤ y ∧ y < (cv.height : Int)
  · have hset : cv.set x y c =
        { cv with pixels := cv.pixels.set (y.toNat * cv.width + x.toNat) (c % 256) } := by
      unfold QuadrantCanvas.set
      rw [if_pos hin]
    rw [hset]
    simp only [QuadrantCanvas.get]
    by_cases hin' : 0 ≤ x' ∧ x' < (cv.width : Int) ∧ 0 ≤ y' ∧ y' < (cv.height : Int)
    · rw [if_pos hin', if_pos hin']
      have hne : y.toNat * cv.width + x.toNat ≠ y'.toNat * cv.width + x'.toNat := by
        obtain ⟨hx0, hx1, hy0, hy1⟩ := hin
        obtain ⟨hx0', hx1', hy0', hy1'⟩ := hin'
        have ha : x.toNat < cv.width := by omega
        have ha' : x'.toNat < cv.width := by omega
        refine rowmajor_ne ha ha' ?_
        rcases h with h | h
        · left; omega
        · right; omega
      rw [List.getD_eq_getElem?_getD, List.getD_eq_getElem?_getD,
        List.getElem?_set_ne hne]
    · rw [if_neg hin', if_neg hin']
  · have hset : cv.set x y c = cv := by
      unfold QuadrantCanvas.set
      rw [if_neg hin]
    rw [hset]

/-- C7: for every canvas and every coordinate pair outside
`[0,width) x [0,height)`, `set` leaves the pixel buffer unchanged and `get`
returns 0. -/
theorem set_get_out_of_bounds (cv : QuadrantCanvas) (x y : Int) (c : Nat)
    (h : ¬(0 ≤ x ∧ x < (cv.width : Int) ∧ 0 ≤ y ∧ y < (cv.height : Int))) :
    cv.set x y c = cv ∧ cv.get x y = 0 := by
  unfold QuadrantCanvas.set QuadrantCanvas.get
  rw [if_neg h, if_neg h]
  exact ⟨rfl, rfl⟩

/-- Witness for C7, at the out-of-bounds coordinate (-1, 0) of a 2x2
canvas. -/
theorem set_get_out_of_bounds_witness :
    (QuadrantCanvas.ofSize 2 2).set (-1) 0 7 = QuadrantCanvas.ofSize 2 2 ∧
      (QuadrantCanvas.ofSize 2 2).get (-1) 0 = 0 :=
  set_get_out_of_bounds (QuadrantCanvas.ofSize 2 2) (-1) 0 7 (by decide)

/-- C10: for every canvas, in-bounds coordinates and color code in `[0,255]`,
`set` followed by `get` at the same coordinates returns the written code, and
every other cell of the pixel buffer reads unchanged. -/
theorem set_get_roundtrip (cv : QuadrantCanvas) (hwf : cv.Wf) (x y : Int) (c : Nat)
    (hx0 : 0 ≤ x) (hx1 : x < (cv.width : Int)) (hy0 : 0 ≤ y) (hy1 : y < (cv.height : Int))
    (hc : c ≤ 255) :
    (cv.set x y c).get x y = c ∧
      ∀ x' y' : Int, (x' ≠ x ∨ y' ≠ y) → (cv.set x y c).get x' y' = cv.get x' y' := by
  constructor
  · rw [get_set_same cv hwf x y c hx0 hx1 hy0 hy1, Nat.mod_eq_of_lt (by omega)]
  · intro x' y' h
    exact get_set_ne cv x y c x' y' h

lemma isPixelCollidable_iff (s : Sprite) (x y : Int) :
    isPixelCollidable s x y = true ↔ collidableAt s x y := by
  unfold isPixelCollidable collidableAt
  split_ifs with h
  · simp only [Bool.false_eq_true, false_iff]
    rintro ⟨h1, h2, h3, h4, -, -⟩
    rcases h with h | h | h | h <;> omega
  · push_neg at h
    obtain ⟨h1, h2, h3, h4⟩ := h
    simp only [Bool.and_eq_true, decide_eq_true_eq]
    constructor
    · rintro ⟨ha, hr⟩
      exact ⟨h1, h2, h3, h4, ha, hr⟩
    · rintro ⟨-, -, -, -, ha, hr⟩
      exact ⟨ha, hr⟩

lemma checkCollision_iff (s1 : Sprite) (x1 y1 w1 h1 sx1 sy1 : Int)
    (s2 : Sprite) (x2 y2 w2 h2 sx2 sy2 : Int) :
    checkCollision s1 x1 y1 w1 h1 sx1 sy1 s2 x2 y2 w2 h2 sx2 sy2 = true ↔
      ∃ x y : Int,
        max x1 x2 ≤ x ∧ x < min (x1 + w1) (x2 + w2) ∧
        max y1 y2 ≤ y ∧ y < min (y1 + h1) (y2 + h2) ∧
        collidableAt s1 (sx1 + (x - x1)) (sy1 + (y - y1)) ∧
        collidableAt s2 (sx2 + (x - x2)) (sy2 + (y - y2)) := by
  simp only [checkCollision]
  split_ifs with hdeg
  · simp only [Bool.false_eq_true, false_iff]
    rintro ⟨x, y, hx1, hx2, hy1, hy2, -, -⟩
    rcases hdeg with h | h <;> omega
  · push_neg at hdeg
    obtain ⟨hlr, htb⟩ := hdeg
    simp only [List.any_eq_true, List.mem_range, Bool.and_eq_true, isPixelCollidable_iff]
    constructor
    · rintro ⟨dy, hdy, dx, hdx, hc1, hc2⟩
      exact ⟨max x1 x2 + dx, max y1 y2 + dy, by omega, by omega, by omega, by omega, hc1, hc2⟩
    · rintro ⟨x, y, hx1, hx2, hy1, hy2, hc1, hc2⟩
      refine ⟨(y - max y1 y2).toNat, by omega, (x - max x1 x2).toNat, by omega, ?_, ?_⟩
      · have hx : max x1 x2 + (((x - max x1 x2).toNat : Nat) : Int) = x := by omega
        have hy : max y1 y2 + (((y - max y1 y2).toNat : Nat) : Int) = y := by omega
        rw [hx, hy]
        exact hc1
      · have hx : max x1 x2 + (((x - max x1 x2).toNat : Nat) : Int) = x := by omega
        have hy : max y1 y2 + (((y - max y1 y2).toNat : Nat) : Int) = y := by omega
        rw [hx, hy]
        exact hc2

/-- C1: `checkCollision` returns true exactly when some integer world
coordinate inside the intersection rectangle of the two instance boxes has
both sprites collidable at the corresponding source pixels (in bounds, alpha
above 128, red below 128); a degenerate intersection yields false; and the
three concrete scenarios hold: two 10x10 opaque-dark sprites at (0,0) and
(5,5) collide, at (0,0) and (10,10) they do not, and a dark sprite against an
all-light sprite at full overlap does not collide. -/
theorem checkCollision_spec :
    (∀ (s1 : Sprite) (x1 y1 w1 h1 sx1 sy1 : Int) (s2 : Sprite) (x2 y2 w2 h2 sx2 sy2 : Int),
      checkCollision s1 x1 y1 w1 h1 sx1 sy1 s2 x2 y2 w2 h2 sx2 sy2 = true ↔
        ∃ x y : Int,
          max x1 x2 ≤ x ∧ x < min (x1 + w1) (x2 + w2) ∧
          max y1 y2 ≤ y ∧ y < min (y1 + h1) (y2 + h2) ∧
          collidableAt s1 (sx1 + (x - x1)) (sy1 + (y - y1)) ∧
          collidableAt s2 (sx2 + (x - x2)) (sy2 + (y - y2))) ∧
    (∀ (s1 : Sprite) (x1 y1 w1 h1 sx1 sy1 : Int) (s2 : Sprite) (x2 y2 w2 h2 sx2 sy2 : Int),
      min (x1 + w1) (x2 + w2) ≤ max x1 x2 ∨ min (y1 + h1) (y2 + h2) ≤ max y1 y2 →
        checkCollision s1 x1 y1 w1 h1 sx1 sy1 s2 x2 y2 w2 h2 sx2 sy2 = false) ∧
    checkCollision darkSquare10 0 0 10 10 0 0 darkSquare10 5 5 10 10 0 0 = true ∧
    checkCollision darkSquare10 0 0 10 10 0 0 darkSquare10 10 10 10 10 0 0 = false ∧
    checkCollision darkSquare10 0 0 10 10 0 0 lightSquare10 0 0 10 10 0 0 = false := by
  refine ⟨fun s1 x1 y1 w1 h1 sx1 sy1 s2 x2 y2 w2 h2 sx2 sy2 =>
      checkCollision_iff s1 x1 y1 w1 h1 sx1 sy1 s2 x2 y2 w2 h2 sx2 sy2,
    fun s1 x1 y1 w1 h1 sx1 sy1 s2 x2 y2 w2 h2 sx2 sy2 h => ?_, by decide, by decide, by decide⟩
  simp only [checkCollision]
  rw [if_pos h]

lemma bit_ite_congr (p q : Nat) (h : 0 < p ↔ 0 < q) :
    (if 0 < p then (1 : Nat) else 0) = if 0 < q then 1 else 0 := by
  by_cases hp : 0 < p
  · rw [if_pos hp, if_pos (h.mp hp)]
  · rw [if_neg hp, if_neg (fun hq => hp (h.mpr hq))]

/-- C6: the glyph emitted for a 2x2 block depends only on the on/off pattern
of the four sub-pixels (each tested with `> 0`), and the 4-bit index - packed
TL, TR, BL, BR with TL most significant - maps through the fixed 16-entry
table, with pattern 0000 giving a space and 1111 the full block. -/
theorem glyphFor_spec :
    (∀ p1 p2 p3 p4 q1 q2 q3 q4 : Nat,
      (0 < p1 ↔ 0 < q1) → (0 < p2 ↔ 0 < q2) → (0 < p3 ↔ 0 < q3) → (0 < p4 ↔ 0 < q4) →
        glyphFor p1 p2 p3 p4 = glyphFor q1 q2 q3 q4) ∧
    glyphFor 0 0 0 0 = ' ' ∧ glyphFor 0 0 0 1 = '▗' ∧
    glyphFor 0 0 1 0 = '▖' ∧ glyphFor 0 0 1 1 = '▄' ∧
    glyphFor 0 1 0 0 = '▝' ∧ glyphFor 0 1 0 1 = '▐' ∧
    glyphFor 0 1 1 0 = '▞' ∧ glyphFor 0 1 1 1 = '▟' ∧
    glyphFor 1 0 0 0 = '▘' ∧ glyphFor 1 0 0 1 = '▚' ∧
    glyphFor 1 0 1 0 = '▌' ∧ glyphFor 1 0 1 1 = '▙' ∧
    glyphFor 1 1 0 0 = '▀' ∧ glyphFor 1 1 0 1 = '▜' ∧
    glyphFor 1 1 1 0 = '▛' ∧ glyphFor 1 1 1 1 = '█' := by
  constructor
  · intro p1 p2 p3 p4 q1 q2 q3 q4 h1 h2 h3 h4
    unfold glyphFor
    rw [bit_ite_congr p1 q1 h1, bit_ite_congr p2 q2 h2, bit_ite_congr p3 q3 h3,
      bit_ite_congr p4 q4 h4]
  · decide

lemma glyphCount_append (a b : List Chunk) :
    glyphCount (a ++ b) = glyphCount a + glyphCount b := by
  simp [glyphCount, List.filter_append]

lemma glyphCount_escChunks (c : Nat) : glyphCount (escChunks c) = 0 := by
  unfold escChunks
  split_ifs <;> rfl

lemma glyphCount_glyph_singleton (c : Char) : glyphCount [Chunk.glyph c] = 1 := rfl

lemma glyphCount_esc_singleton (c : Nat) : glyphCount [Chunk.esc c] = 0 := rfl

lemma glyphCount_blockStep_foldl (cv : QuadrantCanvas) (y : Int) :
    ∀ (cols : List Int) (acc : List Chunk × Nat),
      glyphCount ((cols.foldl (blockStep cv y) acc).1) = glyphCount acc.1 + cols.length := by
  intro cols
  induction cols with
  | nil => intro acc; simp
  | cons c cs ih =>
    intro acc
    rw [List.foldl_cons, ih]
    have hstep : glyphCount ((blockStep cv y acc c).1) = glyphCount acc.1 + 1 := by
      simp only [blockStep]
      split_ifs with h <;>
        simp only [glyphCount_append, glyphCount_escChunks, glyphCount_glyph_singleton]
    rw [hstep, List.length_cons]
    omega

lemma glyphCount_rowLine (cv : QuadrantCanvas) (y : Int) :
    glyphCount (rowLine cv y) = (cv.width + 1) / 2 := by
  simp only [rowLine]
  split_ifs with h <;>
    simp only [glyphCount_append, glyphCount_esc_singleton, glyphCount_blockStep_foldl,
      List.length_map, List.length_range] <;>
    simp [glyphCount]

/-- C5 (amended): for integer arguments with `0 ≤ minY ≤ maxY ≤ height`, the
number of lines `toLines(minY, maxY)` returns is `ceil((maxY-minY)/2)`, and -
for every canvas and every arguments, clipped or not - each returned line
contains exactly `ceil(width/2)` glyphs, ignoring the embedded color escape
chunks. -/
theorem toLines_counts (cv : QuadrantCanvas) (minY maxY : Int) :
    (0 ≤ minY → minY ≤ maxY → maxY ≤ (cv.height : Int) →
      (cv.toLines minY maxY).length = ((maxY - minY).toNat + 1) / 2) ∧
      ∀ l ∈ cv.toLines minY maxY, glyphCount l = (cv.width + 1) / 2 := by
  constructor
  · intro h0 _h1 h2
    simp only [QuadrantCanvas.toLines, List.length_map, List.length_range]
    rw [max_eq_right h0, min_eq_right h2]
  · intro l hl
    simp only [QuadrantCanvas.toLines, List.mem_map] at hl
    obtain ⟨y, -, rfl⟩ := hl
    exact glyphCount_rowLine cv y

/-- Counterexample for C5 as stated over every pair of arguments: on a 2x2
canvas, `toLines(0, 10)` returns 1 line, not `ceil((10-0)/2) = 5` (the row
loop stops at the canvas height). -/
theorem toLines_counts_cex :
    ((QuadrantCanvas.ofSize 2 2).toLines 0 10).length ≠ ((10 - 0 : Int).toNat + 1) / 2 := by
  decide

/-- Witness for C5: the line count on a 2x2 canvas with the valid range 0..2,
and the glyph count on the clipped arguments 0..10 of the counterexample. -/
theorem toLines_counts_witness :
    ((QuadrantCanvas.ofSize 2 2).toLines 0 2).length = ((2 - 0 : Int).toNat + 1) / 2 ∧
      ∀ l ∈ (QuadrantCanvas.ofSize 2 2).toLines 0 10,
        glyphCount l = ((QuadrantCanvas.ofSize 2 2).width + 1) / 2 :=
  ⟨(toLines_counts (QuadrantCanvas.ofSize 2 2) 0 2).1 (le_refl 0) (by decide) (by decide),
    (toLines_counts (QuadrantCanvas.ofSize 2 2) 0 10).2⟩

lemma cnt_pos_of_mem {colors : List Nat} {c : Nat} (h : c ∈ colors) : 0 < cnt colors c := by
  unfold cnt
  have hmem : c ∈ colors.filter (fun o => o == c) := List.mem_filter.mpr ⟨h, by simp⟩
  exact List.length_pos_of_mem hmem

lemma domFoldl_spec (colors : List Nat) :
    ∀ (l : List Nat) (acc : Nat × Nat), (∀ c ∈ l, c ∈ colors) → acc.2 ∈ colors →
      acc.1 = cnt colors acc.2 →
      (l.foldl (domStep colors) acc).2 ∈ colors ∧
        (l.foldl (domStep colors) acc).1 = cnt colors (l.foldl (domStep colors) acc).2 ∧
        (acc.1 < (l.foldl (domStep colors) acc).1 ∨
          (acc.1 = (l.foldl (domStep colors) acc).1 ∧
            acc.2 ≤ (l.foldl (domStep colors) acc).2)) ∧
        ∀ c ∈ l, cnt colors c < (l.foldl (domStep colors) acc).1 ∨
          (cnt colors c = (l.foldl (domStep colors) acc).1 ∧
            c ≤ (l.foldl (domStep colors) acc).2) := by
  intro l
  induction l with
  | nil =>
    intro acc hsub hmem hcnt
    exact ⟨hmem, hcnt, Or.inr ⟨rfl, le_refl _⟩, fun c hc => absurd hc (List.not_mem_nil c)⟩
  | cons c cs ih =>
    intro acc hsub hmem hcnt
    rw [List.foldl_cons]
    have hc : c ∈ colors := hsub c (List.mem_cons_self c cs)
    have hstep : (domStep colors acc c).2 ∈ colors ∧
        (domStep colors acc c).1 = cnt colors (domStep colors acc c).2 ∧
        (acc.1 < (domStep colors acc c).1 ∨
          (acc.1 = (domStep colors acc c).1 ∧ acc.2 ≤ (domStep colors acc c).2)) ∧
        (cnt colors c < (domStep colors acc c).1 ∨
          (cnt colors c = (domStep colors acc c).1 ∧ c ≤ (domStep colors acc c).2)) := by
      simp only [domStep]
      split_ifs with h1 h2 h3
      · exact ⟨hc, rfl, Or.inl h1, Or.inr ⟨rfl, le_refl c⟩⟩
      · exact ⟨hc, h2.symm, Or.inr ⟨rfl, le_of_lt h3⟩, Or.inr ⟨h2, le_refl c⟩⟩
      · exact ⟨hmem, hcnt, Or.inr ⟨rfl, le_refl _⟩, Or.inr ⟨h2, le_of_not_lt h3⟩⟩
      · have h4 : cnt colors c < acc.1 := lt_of_le_of_ne (not_lt.mp h1) h2
        exact ⟨hmem, hcnt, Or.inr ⟨rfl, le_refl _⟩, Or.inl h4⟩
    obtain ⟨a1, a2, a3, a4⟩ := hstep
    obtain ⟨b1, b2, b3, b4⟩ :=
      ih (domStep colors acc c) (fun c' hc' => hsub c' (List.mem_cons_of_mem c hc')) a1 a2
    refine ⟨b1, b2, ?_, ?_⟩
    · rcases a3 with a3 | ⟨a3, a3'⟩ <;> rcases b3 with b3 | ⟨b3, b3'⟩ <;> omega
    · intro c' hc'
      rcases List.mem_cons.mp hc' with rfl | hmem'
      · rcases a4 with a4 | ⟨a4, a4'⟩ <;> rcases b3 with b3 | ⟨b3, b3'⟩ <;> omega
      · exact b4 c' hmem'

lemma domFold_max (L : List Nat) (hne : L ≠ []) :
    (L.foldl (domStep L) (0, 0)).2 ∈ L ∧
      ∀ c ∈ L, cnt L c < cnt L ((L.foldl (domStep L) (0, 0)).2) ∨
        (cnt L c = cnt L ((L.foldl (domStep L) (0, 0)).2) ∧
          c ≤ (L.foldl (domStep L) (0, 0)).2) := by
  obtain ⟨c, cs, hcons⟩ := List.exists_cons_of_ne_nil hne
  subst hcons
  have hc0 : c ∈ c :: cs := List.mem_cons_self c cs
  have hcnt0 : 0 < cnt (c :: cs) c := cnt_pos_of_mem hc0
  have hstep0 : domStep (c :: cs) (0, 0) c = (cnt (c :: cs) c, c) := by
    simp only [domStep]
    rw [if_pos hcnt0]
  rw [List.foldl_cons, hstep0]
  obtain ⟨b1, b2, b3, b4⟩ :=
    domFoldl_spec (c :: cs) cs (cnt (c :: cs) c, c)
      (fun c' hc' => List.mem_cons_of_mem c hc') hc0 rfl
  refine ⟨b1, ?_⟩
  intro c' hc'
  rw [← b2]
  rcases List.mem_cons.mp hc' with rfl | hmem'
  · exact b3
  · exact b4 c' hmem'

/-- C2: the dominant color `toLines` picks for a 2x2 block is the most
frequent nonzero value among the four sub-pixels, with ties broken in favour
of the numerically larger color code; in particular sub-pixels `[1,2,0,0]`
give dominant color 2. -/
theorem dominantColor_spec (p1 p2 p3 p4 : Nat) (h : dcColors p1 p2 p3 p4 ≠ []) :
    dominantColor p1 p2 p3 p4 ∈ dcColors p1 p2 p3 p4 ∧
      (∀ c ∈ dcColors p1 p2 p3 p4,
        cnt (dcColors p1 p2 p3 p4) c <
            cnt (dcColors p1 p2 p3 p4) (dominantColor p1 p2 p3 p4) ∨
          (cnt (dcColors p1 p2 p3 p4) c =
              cnt (dcColors p1 p2 p3 p4) (dominantColor p1 p2 p3 p4) ∧
            c ≤ dominantColor p1 p2 p3 p4)) ∧
      dominantColor 1 2 0 0 = 2 := by
  have hm := domFold_max (dcColors p1 p2 p3 p4) h
  exact ⟨hm.1, hm.2, by decide⟩

/-- Witness for C2, at the sub-pixels 1, 2, 0, 0 of the tie-break
scenario from the spec. -/
theorem dominantColor_spec_witness :
    dcColors 1 2 0 0 ≠ [] ∧ dominantColor 1 2 0 0 = 2 :=
  ⟨by decide, (dominantColor_spec 1 2 0 0 (by decide)).2.2⟩

lemma gradientStep_width (s : Sprite) (x y : Int) (cv : QuadrantCanvas) (p : Nat × Nat) :
    (gradientStep s x y cv p).width = cv.width := by
  simp only [gradientStep]
  split_ifs <;> simp [set_width]

lemma gradientStep_height (s : Sprite) (x y : Int) (cv : QuadrantCanvas) (p : Nat × Nat) :
    (gradientStep s x y cv p).height = cv.height := by
  simp only [gradientStep]
  split_ifs <;> simp [set_height]

lemma gradientStep_Wf (s : Sprite) (x y : Int) (cv : QuadrantCanvas) (p : Nat × Nat)
    (h : cv.Wf) : (gradientStep s x y cv p).Wf := by
  simp only [gradientStep]
  split_ifs <;> first | exact set_Wf cv h _ _ _ | exact h

lemma get_foldl_gradientStep_untouched (s : Sprite) (x y d1 d2 : Int) :
    ∀ (L : List (Nat × Nat)) (cv : QuadrantCanvas),
      (∀ p ∈ L, ¬(x + (p.2 : Int) = d1 ∧ y + (p.1 : Int) = d2)) →
      (L.foldl (gradientStep s x y) cv).get d1 d2 = cv.get d1 d2 := by
  intro L
  induction L with
  | nil => intro cv _; rfl
  | cons p ps ih =>
    intro cv h
    rw [List.foldl_cons, ih _ (fun q hq => h q (List.mem_cons_of_mem p hq))]
    have hp := h p (List.mem_cons_self p ps)
    have hne : d1 ≠ x + (p.2 : Int) ∨ d2 ≠ y + (p.1 : Int) := by
      by_contra hcon
      push_neg at hcon
      exact hp ⟨hcon.1.symm, hcon.2.symm⟩
    simp only [gradientStep]
    split_ifs <;> first | rw [get_set_ne _ _ _ _ _ _ hne] | rfl

lemma get_foldl_gradientStep_write (s : Sprite) (x y : Int) (sx sy : Nat)
    (ha : 128 < s.data ((s.width * sy + sx) * 4 + 3))
    (hr : s.data ((s.width * sy + sx) * 4) < 128) :
    ∀ (L : List (Nat × Nat)) (cv : QuadrantCanvas), cv.Wf → (sy, sx) ∈ L →
      0 ≤ x + (sx : Int) → x + (sx : Int) < (cv.width : Int) →
      0 ≤ y + (sy : Int) → y + (sy : Int) < (cv.height : Int) →
      (L.foldl (gradientStep s x y) cv).get (x + (sx : Int)) (y + (sy : Int)) =
        gradientPixelColor sx s.width % 256 := by
  intro L
  induction L with
  | nil => intro cv _ hmem _ _ _ _; exact absurd hmem (List.not_mem_nil _)
  | cons p ps ih =>
    intro cv hwf hmem hx0 hx1 hy0 hy1
    rw [List.foldl_cons]
    by_cases hmem' : (sy, sx) ∈ ps
    · refine ih (gradientStep s x y cv p) (gradientStep_Wf s x y cv p hwf) hmem' hx0 ?_ hy0 ?_
      · rw [gradientStep_width]; exact hx1
      · rw [gradientStep_height]; exact hy1
    · have hp : p = (sy, sx) := by
        rcases List.mem_cons.mp hmem with h | h
        · exact h.symm
        · exact absurd h hmem'
      subst hp
      have hstep : gradientStep s x y cv (sy, sx) =
          cv.set (x + (sx : Int)) (y + (sy : Int)) (gradientPixelColor sx s.width) := by
        simp only [gradientStep]
        rw [if_pos ha, if_pos hr]
      rw [hstep,
        get_foldl_gradientStep_untouched s x y (x + (sx : Int)) (y + (sy : Int)) ps _
          (fun q hq hcon => by
            have h1 : q.2 = sx := by omega
            have h2 : q.1 = sy := by omega
            have hq' : q = (sy, sx) := by
              obtain ⟨q1, q2⟩ := q
              simp only at h1 h2
              rw [h1, h2]
            exact absurd (hq' ▸ hq) hmem')]
      exact get_set_same cv hwf _ _ _ hx0 hx1 hy0 hy1

lemma getGradientColor_bounds (t : ℚ) :
    GRADIENT_START_IDX ≤ getGradientColor t ∧
      getGradientColor t < GRADIENT_START_IDX + GRADIENT_STEPS := by
  simp only [getGradientColor]
  constructor
  · exact Nat.le_add_right _ _
  · have h1 : max 0 (min 1 t) ≤ 1 := max_le (by norm_num) (min_le_left 1 t)
    have h2 : max 0 (min 1 t) * ((GRADIENT_STEPS : ℚ) - 1) ≤ (GRADIENT_STEPS : ℚ) - 1 := by
      have hmul := mul_le_mul_of_nonneg_right h1
        (by norm_num [GRADIENT_STEPS] : (0 : ℚ) ≤ (GRADIENT_STEPS : ℚ) - 1)
      simpa using hmul
    have h3 : ⌊max 0 (min 1 t) * ((GRADIENT_STEPS : ℚ) - 1)⌋ ≤ 31 := by
      have hfl := Int.floor_le_floor h2
      have h31 : ⌊(GRADIENT_STEPS : ℚ) - 1⌋ = 31 := by norm_num [GRADIENT_STEPS]
      omega
    simp only [GRADIENT_STEPS] at h3
    simp only [GRADIENT_START_IDX, GRADIENT_STEPS]
    omega

lemma mem_spritePixels (s : Sprite) (sx sy : Nat) (hx : sx < s.width) (hy : sy < s.height) :
    (sy, sx) ∈ spritePixels s := by
  unfold spritePixels
  simp only [List.mem_flatMap, List.mem_map, List.mem_range]
  exact ⟨sy, hy, sx, hx, rfl⟩

/-- C4 (amended): for every sprite of width at least 2, `drawSpriteGradient`
stores at each drawn dark pixel exactly the color
`getGradientColor(sx / (width - 1))` - the pixel horizontal fraction across
the full sprite width - and that code always lies in the reserved 32-entry
gradient range.  (For a width-1 sprite the denominator `width - 1` is zero:
the unguarded `0/0` is NaN and the stored code is 0, outside the range.) -/
theorem drawSpriteGradient_spec (s : Sprite) (cv : QuadrantCanvas) (x y : Int)
    (hw : 2 ≤ s.width) (hwf : cv.Wf) (sx sy : Nat) (hsx : sx < s.width) (hsy : sy < s.height)
    (ha : 128 < s.data ((s.width * sy + sx) * 4 + 3))
    (hr : s.data ((s.width * sy + sx) * 4) < 128)
    (hx0 : 0 ≤ x + (sx : Int)) (hx1 : x + (sx : Int) < (cv.width : Int))
    (hy0 : 0 ≤ y + (sy : Int)) (hy1 : y + (sy : Int) < (cv.height : Int)) :
    (drawSpriteGradient cv s x y).get (x + (sx : Int)) (y + (sy : Int)) =
        getGradientColor ((sx : ℚ) / ((s.width : ℚ) - 1)) ∧
      GRADIENT_START_IDX ≤ (drawSpriteGradient cv s x y).get (x + (sx : Int)) (y + (sy : Int)) ∧
      (drawSpriteGradient cv s x y).get (x + (sx : Int)) (y + (sy : Int)) <
        GRADIENT_START_IDX + GRADIENT_STEPS := by
  have hget := get_foldl_gradientStep_write s x y sx sy ha hr (spritePixels s) cv hwf
    (mem_spritePixels s sx sy hsx hsy) hx0 hx1 hy0 hy1
  have hpix : gradientPixelColor sx s.width =
      getGradientColor ((sx : ℚ) / ((s.width : ℚ) - 1)) := by
    unfold gradientPixelColor
    rw [if_neg (by omega)]
  have hb := getGradientColor_bounds ((sx : ℚ) / ((s.width : ℚ) - 1))
  have hlt : gradientPixelColor sx s.width < 256 := by
    rw [hpix]
    have hb2 := hb.2
    simp only [GRADIENT_START_IDX, GRADIENT_STEPS] at hb2
    omega
  have hval : (drawSpriteGradient cv s x y).get (x + (sx : Int)) (y + (sy : Int)) =
      getGradientColor ((sx : ℚ) / ((s.width : ℚ) - 1)) := by
    unfold drawSpriteGradient
    rw [hget, Nat.mod_eq_of_lt hlt, hpix]
  exact ⟨hval, by rw [hval]; exact hb.1, by rw [hval]; exact hb.2⟩

/-- Witness for C4, drawing a 2x1 all-dark sprite onto a 2x2 canvas: the
left dark pixel receives a color inside the gradient range. -/
theorem drawSpriteGradient_spec_witness :
    2 ≤ darkPair.width ∧
      GRADIENT_START_IDX ≤ (drawSpriteGradient (QuadrantCanvas.ofSize 2 2) darkPair 0 0).get 0 0 ∧
      (drawSpriteGradient (QuadrantCanvas.ofSize 2 2) darkPair 0 0).get 0 0 <
        GRADIENT_START_IDX + GRADIENT_STEPS :=
  ⟨Nat.le_refl 2,
    (drawSpriteGradient_spec darkPair (QuadrantCanvas.ofSize 2 2) 0 0 (Nat.le_refl 2) rfl
        0 0 (Nat.succ_pos 1) Nat.one_pos (by decide) (Nat.zero_lt_succ 127) (by decide)
        (by decide) (by decide) (by decide)).2⟩

/-- Counterexample for C4 as stated: for the width-1 sprite `darkDot`, the
width-derived denominator `sprite.width - 1` is zero and unguarded; the drawn
dark pixel is stored with color 0, which is outside the reserved 32-entry
gradient range. -/
theorem drawSpriteGradient_width1_cex :
    darkDot.width = 1 ∧ 128 < darkDot.data 3 ∧ darkDot.data 0 < 128 ∧
      (drawSpriteGradient (QuadrantCanvas.ofSize 1 1) darkDot 0 0).get 0 0 = 0 ∧
      ¬GRADIENT_START_IDX ≤ (drawSpriteGradient (QuadrantCanvas.ofSize 1 1) darkDot 0 0).get 0 0 := by
  exact ⟨rfl, by decide, by decide, by decide, by decide⟩

/-- Witness for C10, on a 2x2 canvas at (0, 1) with color 9. -/
theorem set_get_roundtrip_witness :
    (QuadrantCanvas.ofSize 2 2).Wf ∧ ((QuadrantCanvas.ofSize 2 2).set 0 1 9).get 0 1 = 9 :=
  ⟨rfl,
    (set_get_roundtrip (QuadrantCanvas.ofSize 2 2) rfl 0 1 9 (le_refl 0) (by decide)
        (by decide) (by decide) (by decide)).1⟩

end DinoGraphics

namespace DinoGame

/-- C9: the PLAYING to GAME_OVER transition raises the high score to
`max(highScore, score)`, and `resetGame` resets the score, player position
and velocity, the obstacle and decoration lists, the speed and the spawn
timers, while leaving the high score unchanged - so the high score persists
across a reset that follows a game over. -/
theorem highScore_persistence (st : GameSnapshot) (w h : ℚ) :
    (gameOverTransition st).gameState = GState.GAME_OVER ∧
    (gameOverTransition st).highScore = max st.highScore st.score ∧
    (gameOverTransition st).score = st.score ∧
    (resetGame w h st).highScore = st.highScore ∧
    (resetGame w h st).gameState = GState.PLAYING ∧
    (resetGame w h st).score = 0 ∧
    (resetGame w h st).dinoY = GROUND_Y - h ∧
    (resetGame w h st).dinoVy = 0 ∧
    (resetGame w h st).obstacles = [] ∧
    (resetGame w h st).logos = [] ∧
    (resetGame w h st).clouds =
      [⟨(⌊w * 0.3 / 2⌋ : Int) * 2, 30⟩, ⟨(⌊w * 0.7 / 2⌋ : Int) * 2, 60⟩] ∧
    (resetGame w h st).speed = SPEED_INITIAL ∧
    (resetGame w h st).groundOffset = INITIAL_GROUND_OFFSET ∧
    (resetGame w h st).lastSpawnTick = 0 ∧
    (resetGame w h st).lastPteroSpawnTick = 0 ∧
    (resetGame w h st).gameTick = 0 ∧
    (resetGame w h (gameOverTransition st)).highScore = max st.highScore st.score :=
  ⟨rfl, rfl, rfl, rfl, rfl, rfl, rfl, rfl, rfl, rfl, rfl, rfl, rfl, rfl, rfl, rfl, rfl⟩

/-- C3 (amended): starting a run via `resetGame` puts the state in PLAYING
with score 0 and the player at ground minus the player height; one tick with
no inputs then increases the score by 1, but because the player starts
exactly on the ground line, the gravity step is clamped on ground contact:
the velocity ends the tick at 0 (not `GRAVITY * 1.0`) and the y position is
unchanged.  `DINO_HEIGHT = 23` is the t-rex sheet frame height. -/
theorem resetGame_tick_spec (st : GameSnapshot) (w : ℚ) :
    (resetGame w DINO_HEIGHT st).gameState = GState.PLAYING ∧
    (resetGame w DINO_HEIGHT st).score = 0 ∧
    (resetGame w DINO_HEIGHT st).dinoY = GROUND_Y - DINO_HEIGHT ∧
    (tickCore 1 (resetGame w DINO_HEIGHT st)).score = 1 ∧
    (tickCore 1 (resetGame w DINO_HEIGHT st)).dinoVy = 0 ∧
    (tickCore 1 (resetGame w DINO_HEIGHT st)).dinoY = GROUND_Y - DINO_HEIGHT := by
  have hng : ¬(GState.PLAYING = GState.WAITING ∨ GState.PLAYING = GState.GAME_OVER) := by
    decide
  refine ⟨rfl, rfl, rfl, ?_, ?_, ?_⟩ <;>
    norm_num [tickCore, resetGame, hng, GRAVITY, GROUND_Y, DINO_HEIGHT, HEIGHT]

/-- Counterexample for C3 as stated: from WAITING, after the jump-input reset
and one tick with no inputs, the player's vertical velocity is not
`GRAVITY * 1.0` and the player's y has not increased (the ground clamp zeroes
the velocity and keeps y at the ground line), though the score does increase
by 1. -/
theorem resetGame_tick_cex :
    (tickCore 1 (resetGame 200 DINO_HEIGHT sampleWaiting)).dinoVy ≠ GRAVITY * 1 ∧
    ¬(resetGame 200 DINO_HEIGHT sampleWaiting).dinoY <
        (tickCore 1 (resetGame 200 DINO_HEIGHT sampleWaiting)).dinoY ∧
    (tickCore 1 (resetGame 200 DINO_HEIGHT sampleWaiting)).score =
      (resetGame 200 DINO_HEIGHT sampleWaiting).score + 1 := by
  have hng : ¬(GState.PLAYING = GState.WAITING ∨ GState.PLAYING = GState.GAME_OVER) := by
    decide
  refine ⟨?_, ?_, ?_⟩ <;>
    norm_num [tickCore, resetGame, sampleWaiting, hng, GRAVITY, GROUND_Y, DINO_HEIGHT, HEIGHT]

lemma mem_moveObstacles {obs : List Obstacle} (s ts : ℚ) (o' : Obstacle) :
    o' ∈ moveObstacles s ts obs ↔
      0 < o'.x + o'.width ∧ ∃ o ∈ obs,
        o' = { o with x := o.x - (if o.type = .PTERODACTYL then s * 2 else s) * ts } := by
  unfold moveObstacles
  simp only [List.mem_filter, List.mem_map, decide_eq_true_eq]
  constructor
  · rintro ⟨⟨o, ho, rfl⟩, hpos⟩
    exact ⟨hpos, o, ho, rfl⟩
  · rintro ⟨hpos, o, ho, rfl⟩
    exact ⟨⟨o, ho, rfl⟩, hpos⟩

/-- C8: on a PLAYING tick, an obstacle is in the updated list exactly when it
arises from a previous obstacle by moving left by the current speed times the
time scale (double the base speed for pterodactyls) and its right edge has
not passed the left boundary; in particular no entry of the updated list has
`x + width ≤ 0`. -/
theorem tick_obstacles_spec (ts : ℚ) (st : GameSnapshot) (h : st.gameState = GState.PLAYING) :
    (∀ o ∈ (tickCore ts st).obstacles, 0 < o.x + o.width) ∧
    ∀ o' : Obstacle, o' ∈ (tickCore ts st).obstacles ↔
      0 < o'.x + o'.width ∧ ∃ o ∈ st.obstacles,
        o' = { o with
          x := o.x - (if o.type = .PTERODACTYL then (tickCore ts st).speed * 2
                      else (tickCore ts st).speed) * ts } := by
  have hobs : (tickCore ts st).obstacles =
      moveObstacles (min MAX_SPEED (st.speed + SPEED_ACCELERATION * ts)) ts st.obstacles := by
    simp [tickCore, h]
  have hspeed : (tickCore ts st).speed =
      min MAX_SPEED (st.speed + SPEED_ACCELERATION * ts) := by
    simp [tickCore, h]
  rw [hobs, hspeed]
  refine ⟨fun o ho => ((mem_moveObstacles _ _ o).mp ho).1, fun o' => mem_moveObstacles _ _ o'⟩

/-- Witness for C8, one tick of a concrete PLAYING snapshot holding one
cactus. -/
theorem tick_obstacles_spec_witness :
    samplePlaying.gameState = GState.PLAYING ∧
      ∀ o ∈ (tickCore 1 samplePlaying).obstacles, 0 < o.x + o.width :=
  ⟨rfl, (tick_obstacles_spec 1 samplePlaying rfl).1⟩

end DinoGame
